import Mathlib

/-!
Verification development for the glacio repository.

The development shallowly embeds the two core subsystems:
the sutron packet/message reassembly protocol
(src/sutron/src/packet.rs, src/sutron/src/message.rs) and the
atlas raw-heartbeat binary decoder with its normalization layer
(src/atlas/src/heartbeat/raw.rs, src/atlas/src/heartbeat/mod.rs).

Bytes are modelled as natural numbers below 256, Rust strings as
lists of characters, fallible Rust functions as Except values, and
32-bit floats as their little-endian bit patterns (no claim below
depends on float arithmetic; for the one fixed-point temperature
offset the f32 arithmetic is exact on the whole u8 input range).
-/

namespace Glacio

/-- Bytes are natural numbers; all source values stay below 256. -/
abbrev Byte := Nat

/-- The byte encoding of an ASCII string literal, used for concrete inputs. -/
def strBytes (s : String) : List Byte := s.toList.map Char.toNat

/-- Continuation-byte test for UTF-8 decoding. -/
def isCont (b : Byte) : Bool := 0x80 ≤ b && b ≤ 0xBF

/-- Allowed second byte for a 3-byte UTF-8 sequence (rejects overlongs and surrogates). -/
def utf8Lead3Ok (b c1 : Byte) : Bool :=
  if b = 0xE0 then 0xA0 ≤ c1 && c1 ≤ 0xBF
  else if b = 0xED then 0x80 ≤ c1 && c1 ≤ 0x9F
  else isCont c1

/-- Allowed second byte for a 4-byte UTF-8 sequence (rejects overlongs and values above 0x10FFFF). -/
def utf8Lead4Ok (b c1 : Byte) : Bool :=
  if b = 0xF0 then 0x90 ≤ c1 && c1 ≤ 0xBF
  else if b = 0xF4 then 0x80 ≤ c1 && c1 ≤ 0x8F
  else isCont c1

/-- UTF-8 validation and decoding, as performed by Rust's `String::from_utf8`
and `read_to_string`: returns `none` exactly on invalid UTF-8. -/
def utf8Decode : List Byte → Option (List Char)
  | [] => some []
  | b :: rest =>
    if b < 0x80 then
      (utf8Decode rest).map fun cs => Char.ofNat b :: cs
    else if 0xC2 ≤ b && b ≤ 0xDF then
      match rest with
      | c1 :: rest2 =>
        if isCont c1 then
          (utf8Decode rest2).map fun cs =>
            Char.ofNat ((b - 0xC0) * 0x40 + (c1 - 0x80)) :: cs
        else none
      | [] => none
    else if 0xE0 ≤ b && b ≤ 0xEF then
      match rest with
      | c1 :: c2 :: rest2 =>
        if utf8Lead3Ok b c1 && isCont c2 then
          (utf8Decode rest2).map fun cs =>
            Char.ofNat ((b - 0xE0) * 0x1000 + (c1 - 0x80) * 0x40 + (c2 - 0x80)) :: cs
        else none
      | _ => none
    else if 0xF0 ≤ b && b ≤ 0xF4 then
      match rest with
      | c1 :: c2 :: c3 :: rest2 =>
        if utf8Lead4Ok b c1 && isCont c2 && isCont c3 then
          (utf8Decode rest2).map fun cs =>
            Char.ofNat ((b - 0xF0) * 0x40000 + (c1 - 0x80) * 0x1000
              + (c2 - 0x80) * 0x40 + (c3 - 0x80)) :: cs
        else none
      | _ => none
    else none

/-- Decimal digit value of a character, `none` for non-digits. -/
def digitVal (c : Char) : Option Nat :=
  if '0' ≤ c && c ≤ '9' then some (c.toNat - 48) else none

/-- Accumulate decimal digits; fails on the first non-digit. -/
def parseDigitsAux : List Char → Nat → Option Nat
  | [], acc => some acc
  | c :: cs, acc =>
    match digitVal c with
    | some d => parseDigitsAux cs (acc * 10 + d)
    | none => none

/-- Rust's `str::parse` for an unsigned integer type with maximum value `maxVal`:
an optional leading plus sign, then at least one decimal digit, the value
fitting in the type.  Returns `none` where Rust returns a `ParseIntError`
(empty input, invalid digit, or overflow). -/
def rustParseNat (maxVal : Nat) (s : List Char) : Option Nat :=
  let digits := match s with
    | '+' :: cs => cs
    | cs => cs
  match digits with
  | [] => none
  | _ =>
    match parseDigitsAux digits 0 with
    | some v => if v ≤ maxVal then some v else none
    | none => none

/-- The maximum value of Rust's 64-bit `usize`. -/
def USIZE_MAX : Nat := 18446744073709551615

/-- Rust's `str::split(',')` on a list of characters: the comma-separated
fields, where the empty string yields one empty field. -/
def splitComma : List Char → List (List Char)
  | [] => [[]]
  | c :: rest =>
    if c = ',' then [] :: splitComma rest
    else
      match splitComma rest with
      | f :: fs => (c :: f) :: fs
      | [] => [[c]]

/-! ## Packet parsing (src/sutron/src/packet.rs) -/

/-- The filler byte skipped before the type byte (`b'~'`). -/
def LOOK_TO_NEXT_BYTE_FOR_MEANING : Byte := 126

/-- The byte terminating a sub-header (`b':'`). -/
def SUB_HEADER_TERMINATOR : Byte := 58

/-- The packet type, from the source's `Type` enum. -/
inductive PType
  | selfTimed
  | enteringAlarm
  | exitingAlarm
  | commandResponse
  | forcedTransmission
  | reserved (n : Byte)
  | userDefined
  | binaryData
  deriving DecidableEq

/-- `Type::from(u8)`: the match over the type byte. -/
def PType.ofByte (n : Byte) : PType :=
  if n = 48 || n = 49 then .selfTimed
  else if n = 50 || n = 51 then .enteringAlarm
  else if n = 52 || n = 53 then .exitingAlarm
  else if n = 54 || n = 55 then .commandResponse
  else if n = 56 || n = 57 then .forcedTransmission
  else if n = 125 then .userDefined
  else if n = 255 then .binaryData
  else .reserved n

/-- `is_extended`: type bytes strictly between `b'0'` and `b'9'` inclusive
upper, and odd, mark extended packets. -/
def is_extended (n : Byte) : Bool :=
  (decide (48 < n)) && (decide (n ≤ 57)) && (decide (n % 2 = 1))

/-- A packet sub-header, from the source's `SubHeader`. -/
structure SubHeader where
  id : Byte
  start_byte : Nat
  total_bytes : Option Nat
  deriving DecidableEq

/-- Errors raised while parsing a packet.  The source wraps both its own
`Error` enum and foreign errors (UTF-8 decoding, integer parsing) in
`failure::Error`; the foreign ones are the last two constructors. -/
inductive PacketError
  | leadingSubHeaderCharacters (s : List Char)
  | missingId
  | missingPacketTypeByte
  | missingStartByte
  | invalidStationNameField (s : List Char)
  | trailingSubHeaderCharacters (s : List Char)
  | utf8Error
  | parseIntError
  deriving DecidableEq

/-- A parsed packet, from the source's `Packet`.  The optional SBD message
of the source is external input; only the session timestamp derived from it
matters to the core, so it is modelled as `datetime`. -/
structure Packet where
  data : List Byte
  subHeader : Option SubHeader
  stationName : Option (List Char)
  type_ : PType
  datetime : Option Nat
  deriving DecidableEq

/-- `parse_sub_header_station_name`: accepts exactly the fields of the
form `N=<name>`. -/
def parse_sub_header_station_name (s : List Char) : Option (List Char) :=
  match s with
  | 'N' :: '=' :: rest => some rest
  | _ => none

/-- Skipping the leading filler bytes of `Packet::new`'s input. -/
def dropTildes (bytes : List Byte) : List Byte :=
  bytes.dropWhile fun b => b = LOOK_TO_NEXT_BYTE_FOR_MEANING

/-- The positional parse of an extended packet's sub-header string,
mirroring the field-by-field iterator walk in `Packet::new`: empty first
field, numeric id, numeric start byte, optional fourth field that is a
station name or a total-byte count, optional fifth field that must be a
station name, and no sixth field. -/
def parseSubHeaderFields (s : List Char) :
    Except PacketError (SubHeader × Option (List Char)) :=
  let fields := splitComma s
  let firstBad : Option (List Char) :=
    match fields.head? with
    | some first => if first = [] then none else some first
    | none => none
  match firstBad with
  | some first => .error (.leadingSubHeaderCharacters first)
  | none =>
    match fields[1]? with
    | none => .error .missingId
    | some idField =>
      match rustParseNat 255 idField with
      | none => .error .parseIntError
      | some id =>
        match fields[2]? with
        | none => .error .missingStartByte
        | some sbField =>
          match rustParseNat USIZE_MAX sbField with
          | none => .error .parseIntError
          | some startByte =>
            let step4 : Except PacketError (Option Nat × Option (List Char)) :=
              match fields[3]? with
              | none => .ok (none, none)
              | some f =>
                match parse_sub_header_station_name f with
                | some name => .ok (none, some name)
                | none =>
                  match rustParseNat USIZE_MAX f with
                  | some tb => .ok (some tb, none)
                  | none => .error .parseIntError
            match step4 with
            | .error e => .error e
            | .ok (totalBytes, station4) =>
              let step5 : Except PacketError (Option (List Char)) :=
                match fields[4]? with
                | none => .ok station4
                | some f =>
                  match parse_sub_header_station_name f with
                  | some name => .ok (some name)
                  | none => .error (.invalidStationNameField f)
              match step5 with
              | .error e => .error e
              | .ok station =>
                let remaining := List.intercalate [','] (fields.drop 5)
                if remaining ≠ [] then
                  .error (.trailingSubHeaderCharacters (',' :: remaining))
                else
                  .ok (⟨id, startByte, totalBytes⟩, station)

/-- `station_name_from_non_extended_sub_header`: for non-extended packets,
recognize an optional `,N=<name>:` leader.  Invalid UTF-8 is replaced by
the empty string as in the source's `unwrap_or`.  Returns the name and the
bytes left after the terminator when the pattern matches, else `none`
(in which case the caller restores the untouched byte iterator). -/
def station_name_from_non_extended_sub_header (rest : List Byte) :
    Option (List Char × List Byte) :=
  let shBytes := rest.takeWhile fun b => b ≠ SUB_HEADER_TERMINATOR
  let after := (rest.dropWhile fun b => b ≠ SUB_HEADER_TERMINATOR).drop 1
  let s := (utf8Decode shBytes).getD []
  match s with
  | ',' :: more =>
    match parse_sub_header_station_name more with
    | some name => some (name, after)
    | none => none
  | _ => none

/-- `Packet::new`: skip filler bytes, classify the type byte, parse the
extended sub-header text when present, otherwise try the simplified
station-name leader, and keep the remaining bytes as data. -/
def Packet.new (bytes : List Byte) : Except PacketError Packet :=
  match dropTildes bytes with
  | [] => .error .missingPacketTypeByte
  | t :: rest =>
    if is_extended t then
      let shBytes := rest.takeWhile fun b => b ≠ SUB_HEADER_TERMINATOR
      let after := (rest.dropWhile fun b => b ≠ SUB_HEADER_TERMINATOR).drop 1
      match utf8Decode shBytes with
      | none => .error .utf8Error
      | some s =>
        match parseSubHeaderFields s with
        | .error e => .error e
        | .ok (sh, station) => .ok ⟨after, some sh, station, PType.ofByte t, none⟩
    else
      match station_name_from_non_extended_sub_header rest with
      | some (name, after) => .ok ⟨after, none, some name, PType.ofByte t, none⟩
      | none => .ok ⟨rest, none, none, PType.ofByte t, none⟩

/-- `Packet::is_start_packet`: true for non-extended packets and for
extended packets declaring a total byte count. -/
def Packet.is_start_packet (p : Packet) : Bool :=
  (p.subHeader.map fun h => h.total_bytes.isSome).getD true

/-! ## Messages and reassembly (src/sutron/src/message.rs) -/

/-- A reassembled message, from the source's `Message`. -/
structure Message where
  data : List Byte
  datetime : Option Nat
  packets : List Packet
  deriving DecidableEq

/-- Errors associated with creating messages, from the source's `Error`. -/
inductive MessageError
  | dataLengthMismatch (sub_header : Nat) (actual : Nat)
  | noPackets
  | noTotalBytes (p : Packet)
  deriving DecidableEq

/-- The fold in `Message::new` concatenating the packets' data in order. -/
def concatData (packets : List Packet) : List Byte :=
  packets.foldl (fun acc p => acc ++ p.data) []

/-- `Message::new`: reject an empty list, anchor on the first packet's
sub-header, check the concatenated length against the declared total, and
fall back to the first packet's data for plain packets. -/
def Message.new (packets : List Packet) : Except MessageError Message :=
  match packets with
  | [] => .error .noPackets
  | p :: ps =>
    match p.subHeader with
    | some sh =>
      match sh.total_bytes with
      | some totalBytes =>
        let data := concatData (p :: ps)
        if data.length = totalBytes then
          .ok ⟨data, p.datetime, p :: ps⟩
        else
          .error (.dataLengthMismatch totalBytes data.length)
      | none => .error (.noTotalBytes p)
    | none => .ok ⟨p.data, p.datetime, p :: ps⟩

/-- The reassembler state: the fragment map (modelled as a total function
from ids to fragment lists, empty by default, the behaviour of the
source's `HashMap` entry API) and the recycle bin. -/
structure Reassembler where
  packetMap : Byte → List Packet
  recycleBin : List Packet

/-- `Reassembler::new` by way of `default`: empty map, empty bin. -/
def Reassembler.new : Reassembler := ⟨fun _ => [], []⟩

/-- `Reassembler::add`: packets without a sub-header become messages on
their own; fragments are appended to their id's list, after draining the
list into the recycle bin when the fragment starts a new message, and the
list is cleared when a message completes. -/
def Reassembler.add (r : Reassembler) (packet : Packet) :
    Option Message × Reassembler :=
  match packet.subHeader with
  | some sh =>
    let entry0 := r.packetMap sh.id
    let bin :=
      if packet.is_start_packet then r.recycleBin ++ entry0 else r.recycleBin
    let entry1 := (if packet.is_start_packet then [] else entry0) ++ [packet]
    match Message.new entry1 with
    | .ok m => (some m, ⟨fun j => if j = sh.id then [] else r.packetMap j, bin⟩)
    | .error _ =>
      (none, ⟨fun j => if j = sh.id then entry1 else r.packetMap j, bin⟩)
  | none => ((Message.new [packet]).toOption, r)

/-! ## Raw heartbeats (src/atlas/src/heartbeat/raw.rs) -/

/-- Errors returned when reading a raw heartbeat, from the source's
`Error`, together with the foreign errors that `failure::Error` can wrap
on this path (an exhausted reader, invalid UTF-8 and a failed integer
parse). -/
inductive RawError
  | magicNumber (bytes : List Byte)
  | regexMismatch (s : List Char)
  | version (n : Nat)
  | unexpectedByte (b : Byte)
  | eof
  | utf8Error
  | parseIntError
  deriving DecidableEq

/-- `read_u8`: one byte off the front of the buffer. -/
def readU8 : List Byte → Except RawError (Byte × List Byte)
  | [] => .error .eof
  | b :: rest => .ok (b, rest)

/-- `read_exact` of `n` bytes. -/
def readBytesN : Nat → List Byte → Except RawError (List Byte × List Byte)
  | 0, bs => .ok ([], bs)
  | _ + 1, [] => .error .eof
  | n + 1, b :: bs =>
    match readBytesN n bs with
    | .ok (xs, rest) => .ok (b :: xs, rest)
    | .error e => .error e

/-- The little-endian value of a byte list (first byte least significant). -/
def leWord (bs : List Byte) : Nat :=
  bs.foldr (fun b acc => b + 256 * acc) 0

/-- `read_u16::<LittleEndian>`. -/
def readU16le (bs : List Byte) : Except RawError (Nat × List Byte) := do
  let (xs, rest) ← readBytesN 2 bs
  .ok (leWord xs, rest)

/-- `read_u32::<LittleEndian>`; also models `read_f32` with the float
carried as its 32-bit little-endian bit pattern. -/
def readU32le (bs : List Byte) : Except RawError (Nat × List Byte) := do
  let (xs, rest) ← readBytesN 4 bs
  .ok (leWord xs, rest)

/-- `read_i8`: one byte interpreted in two's complement. -/
def readI8 (bs : List Byte) : Except RawError (Int × List Byte) := do
  let (b, rest) ← readU8 bs
  .ok (if b < 128 then (b : Int) else (b : Int) - 256, rest)

namespace version_03

/-- `COULD_NOT_OPEN` (`b'x'`). -/
def COULD_NOT_OPEN : Byte := 120

/-- `GOOD` (`b'g'`). -/
def GOOD : Byte := 103

/-- `BAD` (`b'b'`). -/
def BAD : Byte := 98

/-- A K2 battery record; the f32 fields hold little-endian bit patterns. -/
structure K2 where
  voltage : Nat
  current : Nat
  temperature : Int
  state_of_charge : Byte
  status : Byte
  shutdown_codes : Nat
  error_codes : Nat
  warning_codes : Nat
  additional_information : Byte
  deriving DecidableEq

/-- `K2::read_from`: the 18-byte fixed-width battery record. -/
def K2.read_from (bs : List Byte) : Except RawError (K2 × List Byte) := do
  let (voltage, bs) ← readU32le bs
  let (current, bs) ← readU32le bs
  let (temperature, bs) ← readI8 bs
  let (stateOfCharge, bs) ← readU8 bs
  let (status, bs) ← readU8 bs
  let (shutdownCodes, bs) ← readU16le bs
  let (errorCodes, bs) ← readU16le bs
  let (warningCodes, bs) ← readU16le bs
  let (additionalInformation, bs) ← readU8 bs
  .ok (⟨voltage, current, temperature, stateOfCharge, status, shutdownCodes,
    errorCodes, warningCodes, additionalInformation⟩, bs)

/-- The battery bank: absent as a whole when the bus could not be opened. -/
structure Batteries where
  bank : Option (List (Option K2))
  deriving DecidableEq

/-- The per-slot loop of `Batteries::read_from`: a good slot reads a K2
record, a bad slot stays empty, and any other status byte is a hard
decode error. -/
def readBatterySlots : Nat → List (Option K2) → List Byte →
    Except RawError (List (Option K2) × List Byte)
  | 0, acc, bs => .ok (acc, bs)
  | n + 1, acc, bs => do
    let (c, bs1) ← readU8 bs
    if c = GOOD then do
      let (k2, bs2) ← K2.read_from bs1
      readBatterySlots n (acc ++ [some k2]) bs2
    else if c = BAD then
      readBatterySlots n (acc ++ [none]) bs1
    else
      .error (.unexpectedByte c)

/-- `Batteries::read_from`: a bank-level could-not-open byte makes the
whole bank absent; otherwise the byte is unread (the source seeks back by
one) and exactly four slots are decoded. -/
def Batteries.read_from (bs : List Byte) :
    Except RawError (Batteries × List Byte) := do
  let (c, bs1) ← readU8 bs
  if c = COULD_NOT_OPEN then .ok (⟨none⟩, bs1)
  else do
    let (slots, bs2) ← readBatterySlots 4 [] bs
    .ok (⟨some slots⟩, bs2)

/-- An EFOY fuel-cell record; the f32 fields hold little-endian bit
patterns. -/
structure Efoy where
  internal_temperature : Nat
  battery_voltage : Nat
  output_current : Nat
  reservoir_fluid_level : Nat
  current_error : Byte
  methanol_consumption : Nat
  mode : Byte
  status : Byte
  deriving DecidableEq

/-- `Efoy::read_from`: the 23-byte fixed-width fuel-cell record. -/
def Efoy.read_from (bs : List Byte) : Except RawError (Efoy × List Byte) := do
  let (internalTemperature, bs) ← readU32le bs
  let (batteryVoltage, bs) ← readU32le bs
  let (outputCurrent, bs) ← readU32le bs
  let (reservoirFluidLevel, bs) ← readU32le bs
  let (currentError, bs) ← readU8 bs
  let (methanolConsumption, bs) ← readU32le bs
  let (mode, bs) ← readU8 bs
  let (status, bs) ← readU8 bs
  .ok (⟨internalTemperature, batteryVoltage, outputCurrent,
    reservoirFluidLevel, currentError, methanolConsumption, mode, status⟩, bs)

/-- The two EFOY slots of version 03. -/
structure Efoys where
  slots : List (Option Efoy)
  deriving DecidableEq

/-- The per-slot loop of version 03's `Efoys::read_from`: a slot is empty
when its status byte is could-not-open or bad, and otherwise an EFOY
record is read. -/
def readEfoySlots : Nat → List (Option Efoy) → List Byte →
    Except RawError (List (Option Efoy) × List Byte)
  | 0, acc, bs => .ok (acc, bs)
  | n + 1, acc, bs => do
    let (c, bs1) ← readU8 bs
    if c = COULD_NOT_OPEN ∨ c = BAD then
      readEfoySlots n (acc ++ [none]) bs1
    else do
      let (e, bs2) ← Efoy.read_from bs1
      readEfoySlots n (acc ++ [some e]) bs2

/-- Version 03's `Efoys::read_from`: exactly two slots. -/
def Efoys.read_from (bs : List Byte) :
    Except RawError (Efoys × List Byte) := do
  let (slots, rest) ← readEfoySlots 2 [] bs
  .ok (⟨slots⟩, rest)

/-- The mandatory weather-sensor block; f32 bit patterns. -/
structure Sensors where
  barometric_pressure : Nat
  power_box_temperature : Nat
  external_temperature : Nat
  relative_humidity : Nat
  deriving DecidableEq

/-- `Sensors::read_from`: four little-endian floats. -/
def Sensors.read_from (bs : List Byte) :
    Except RawError (Sensors × List Byte) := do
  let (barometricPressure, bs) ← readU32le bs
  let (powerBoxTemperature, bs) ← readU32le bs
  let (externalTemperature, bs) ← readU32le bs
  let (relativeHumidity, bs) ← readU32le bs
  .ok (⟨barometricPressure, powerBoxTemperature, externalTemperature,
    relativeHumidity⟩, bs)

/-- The optional wind block; f32 bit patterns. -/
structure Wind where
  speed : Nat
  direction : Nat
  deriving DecidableEq

/-- `Wind::read_from`: two little-endian floats, speed then direction. -/
def Wind.read_from (bs : List Byte) : Except RawError (Wind × List Byte) := do
  let (speed, bs) ← readU32le bs
  let (direction, bs) ← readU32le bs
  .ok (⟨speed, direction⟩, bs)

/-- The scanner log fields captured by the trailing text block. -/
structure Scanner where
  power_on : List Char
  start_scan : List Char
  stop_scan : List Char
  skip_scan : List Char
  deriving DecidableEq

end version_03

/-- All ways of splitting a character list into two pieces, shortest
leading piece first. -/
def allSplits : List Char → List (List Char × List Char)
  | [] => [([], [])]
  | c :: rest => ([], c :: rest) :: (allSplits rest).map fun pr => (c :: pr.1, pr.2)

/-- A regex `.` group may match anything except a newline. -/
def noNewline (s : List Char) : Bool := s.all fun c => c ≠ '\n'

/-- Backtracking matcher for a pattern of the form
`(.*) lit1 (.*) lit2 ... litN (.*)$` anchored at both ends, with greedy
groups tried longest first, the preference order of the source's regex.
Returns the list of captured groups on a match. -/
def matchGroups : List (List Char) → List Char → Option (List (List Char))
  | [], s => if noNewline s then some [s] else none
  | lit :: lits, s =>
    (allSplits s).reverse.findSome? fun pr =>
      if noNewline pr.1 && lit.isPrefixOf pr.2 then
        (matchGroups lits (pr.2.drop lit.length)).map fun gs => pr.1 :: gs
      else none

/-- The anchored scanner-log regex of `Scanner::read_from`:
the pattern `power_on=(.*),start_scan=(.*),stop_scan=(.*),skip_scan=(.*)`
anchored at both ends; returns the four captures on a match. -/
def scannerRegexMatch (s : List Char) : Option (List (List Char)) :=
  if ("power_on=".toList).isPrefixOf s then
    matchGroups [",start_scan=".toList, ",stop_scan=".toList, ",skip_scan=".toList]
      (s.drop 9)
  else none

namespace version_03

/-- `Scanner::read_from`: read all remaining bytes as UTF-8 text and match
the anchored scanner-log regex, capturing the four fields. -/
def Scanner.read_from (bs : List Byte) :
    Except RawError (Scanner × List Byte) :=
  match utf8Decode bs with
  | none => .error .utf8Error
  | some s =>
    match scannerRegexMatch s with
    | some [a, b, c, d] => .ok (⟨a, b, c, d⟩, [])
    | _ => .error (.regexMismatch s)

end version_03

namespace version_04

/-- Version 04's EFOY record: the version 03 record plus the active
cartridge port byte. -/
structure Efoy where
  efoy : version_03.Efoy
  active_cartridge_port : Byte
  deriving DecidableEq

/-- The two EFOY slots of version 04. -/
structure Efoys where
  slots : List (Option Efoy)
  deriving DecidableEq

/-- The per-slot loop of version 04's `Efoys::read_from`: like version 03
but with one extra byte per present slot. -/
def readEfoySlots : Nat → List (Option Efoy) → List Byte →
    Except RawError (List (Option Efoy) × List Byte)
  | 0, acc, bs => .ok (acc, bs)
  | n + 1, acc, bs => do
    let (c, bs1) ← readU8 bs
    if c = version_03.COULD_NOT_OPEN ∨ c = version_03.BAD then
      readEfoySlots n (acc ++ [none]) bs1
    else do
      let (e, bs2) ← version_03.Efoy.read_from bs1
      let (port, bs3) ← readU8 bs2
      readEfoySlots n (acc ++ [some ⟨e, port⟩]) bs3

/-- Version 04's `Efoys::read_from`: exactly two slots. -/
def Efoys.read_from (bs : List Byte) :
    Except RawError (Efoys × List Byte) := do
  let (slots, rest) ← readEfoySlots 2 [] bs
  .ok (⟨slots⟩, rest)

end version_04

/-- The versioned raw heartbeat union. -/
inductive Heartbeat
  | version03 (batteries : version_03.Batteries) (efoys : version_03.Efoys)
      (sensors : version_03.Sensors) (wind : Option version_03.Wind)
      (scanner : version_03.Scanner)
  | version04 (batteries : version_03.Batteries) (efoys : version_04.Efoys)
      (sensors : version_03.Sensors) (wind : Option version_03.Wind)
      (scanner : version_03.Scanner)
  deriving DecidableEq

/-- The 4-byte ASCII magic literal `b"ATHB"`. -/
def MAGIC_NUMBER : List Byte := [65, 84, 72, 66]

/-- `Heartbeat::read_version_03_from`: batteries, EFOYs and sensors, then
the speculative scanner parse with rewind-and-retry through a wind block. -/
def Heartbeat.read_version_03_from (bs : List Byte) :
    Except RawError Heartbeat := do
  let (batteries, bs1) ← version_03.Batteries.read_from bs
  let (efoys, bs2) ← version_03.Efoys.read_from bs1
  let (sensors, bs3) ← version_03.Sensors.read_from bs2
  match version_03.Scanner.read_from bs3 with
  | .ok (scanner, _) => .ok (.version03 batteries efoys sensors none scanner)
  | .error _ => do
    let (wind, bs4) ← version_03.Wind.read_from bs3
    let (scanner2, _) ← version_03.Scanner.read_from bs4
    .ok (.version03 batteries efoys sensors (some wind) scanner2)

/-- `Heartbeat::read_version_04_from`: identical to version 03 except for
the EFOY record width. -/
def Heartbeat.read_version_04_from (bs : List Byte) :
    Except RawError Heartbeat := do
  let (batteries, bs1) ← version_03.Batteries.read_from bs
  let (efoys, bs2) ← version_04.Efoys.read_from bs1
  let (sensors, bs3) ← version_03.Sensors.read_from bs2
  match version_03.Scanner.read_from bs3 with
  | .ok (scanner, _) => .ok (.version04 batteries efoys sensors none scanner)
  | .error _ => do
    let (wind, bs4) ← version_03.Wind.read_from bs3
    let (scanner2, _) ← version_03.Scanner.read_from bs4
    .ok (.version04 batteries efoys sensors (some wind) scanner2)

/-- `Heartbeat::new`: check the magic number, parse the two ASCII version
digits, skip the three reserved length bytes, and dispatch on the version. -/
def Heartbeat.new (bytes : List Byte) : Except RawError Heartbeat := do
  let (magic, bs1) ← readBytesN 4 bytes
  if magic ≠ MAGIC_NUMBER then .error (.magicNumber magic)
  else do
    let (vb, bs2) ← readBytesN 2 bs1
    match utf8Decode vb with
    | none => .error .utf8Error
    | some vs =>
      match rustParseNat 255 vs with
      | none => .error .parseIntError
      | some version => do
        let (_, bs3) ← readBytesN 3 bs2
        if version = 3 then Heartbeat.read_version_03_from bs3
        else if version = 4 then Heartbeat.read_version_04_from bs3
        else .error (.version version)

/-! ## Heartbeat normalization (src/atlas/src/heartbeat/mod.rs) -/

/-- The status of a K2 battery in the normalized heartbeat. -/
inductive K2BatteryStatus
  | discharge
  | charge
  | idle
  deriving DecidableEq

/-- `K2BatteryStatus::from(u8)`: 1 discharges, 2 charges, everything else
is idle. -/
def K2BatteryStatus.ofByte (n : Byte) : K2BatteryStatus :=
  if n = 1 then .discharge
  else if n = 2 then .charge
  else .idle

/-- The named K2 error conditions. -/
inductive K2ErrorCodes
  | cellOvervoltage
  | cellUndervoltage
  | overtemperature
  | undertemperature
  | overcurrentDischarge
  | overcurrentCharge
  | securitySwitch
  | cellMonitorCommError
  deriving DecidableEq

/-- `K2ErrorCodes::flags`: the eight sequential single-bit tests pushing
named flags, written as the concatenation of their eight results. -/
def K2ErrorCodes.flags (n : Nat) : List K2ErrorCodes :=
  (if n &&& 1 = 1 then [K2ErrorCodes.cellOvervoltage] else []) ++
  (if n &&& 2 = 2 then [K2ErrorCodes.cellUndervoltage] else []) ++
  (if n &&& 4 = 4 then [K2ErrorCodes.overtemperature] else []) ++
  (if n &&& 8 = 8 then [K2ErrorCodes.undertemperature] else []) ++
  (if n &&& 16 = 16 then [K2ErrorCodes.overcurrentDischarge] else []) ++
  (if n &&& 32 = 32 then [K2ErrorCodes.overcurrentCharge] else []) ++
  (if n &&& 0x100 = 0x100 then [K2ErrorCodes.securitySwitch] else []) ++
  (if n &&& 0x200 = 0x200 then [K2ErrorCodes.cellMonitorCommError] else [])

/-- The bit tested for each named flag. -/
def K2ErrorCodes.mask : K2ErrorCodes → Nat
  | .cellOvervoltage => 1
  | .cellUndervoltage => 2
  | .overtemperature => 4
  | .undertemperature => 8
  | .overcurrentDischarge => 16
  | .overcurrentCharge => 32
  | .securitySwitch => 0x100
  | .cellMonitorCommError => 0x200

/-- `offset_k2_temperature`: the raw u8 temperature rebased by the fixed
offset of 40; the source's f32 addition is exact on this range. -/
def offset_k2_temperature (n : Byte) : Nat := n + 40

/-! ## Shared helper lemmas -/

theorem except_bind_ok {ε α β : Type} (a : α) (f : α → Except ε β) :
    (Except.ok a >>= f) = f a := rfl

theorem except_bind_error {ε α β : Type} (e : ε) (f : α → Except ε β) :
    ((Except.error e : Except ε α) >>= f) = Except.error e := rfl

theorem mem_ite_singleton {α : Type} (a b : α) (c : Prop) [Decidable c] :
    (a ∈ if c then [b] else []) ↔ c ∧ a = b := by
  split <;> simp_all

/-! ## Claim theorems -/

/-- C3: `Message::new` fails with `NoPackets` iff the list is empty; with a
first packet declaring `total_bytes = T` it succeeds exactly when the
concatenation of all packets' data has length `T` and otherwise fails with
`DataLengthMismatch` carrying the declared and actual lengths; a first
packet whose sub-header lacks `total_bytes` fails with `NoTotalBytes`. -/
theorem c3_message_new_characterization :
    (∀ packets : List Packet,
      Message.new packets = .error .noPackets ↔ packets = [])
    ∧ (∀ (p : Packet) (ps : List Packet) (sh : SubHeader) (T : Nat),
        p.subHeader = some sh → sh.total_bytes = some T →
        ((concatData (p :: ps)).length = T →
          Message.new (p :: ps) = .ok ⟨concatData (p :: ps), p.datetime, p :: ps⟩)
        ∧ ((concatData (p :: ps)).length ≠ T →
          Message.new (p :: ps) =
            .error (.dataLengthMismatch T (concatData (p :: ps)).length)))
    ∧ (∀ (p : Packet) (ps : List Packet) (sh : SubHeader),
        p.subHeader = some sh → sh.total_bytes = none →
        Message.new (p :: ps) = .error (.noTotalBytes p)) := by
  refine ⟨?_, ?_, ?_⟩
  · intro packets
    constructor
    · intro h
      cases packets with
      | nil => rfl
      | cons p ps =>
        exfalso
        simp only [Message.new] at h
        cases hsh : p.subHeader with
        | none => simp only [hsh] at h; simp at h
        | some sh =>
          simp only [hsh] at h
          cases htb : sh.total_bytes with
          | none => simp only [htb] at h; simp at h
          | some T =>
            simp only [htb] at h
            split at h <;> simp at h
    · intro h
      subst h
      rfl
  · intro p ps sh T hsh htb
    constructor
    · intro hlen
      simp only [Message.new, hsh, htb]
      rw [if_pos hlen]
    · intro hlen
      simp only [Message.new, hsh, htb]
      rw [if_neg hlen]
  · intro p ps sh hsh htb
    simp only [Message.new, hsh, htb]

/-- Witness for C3 at a concrete one-packet list whose declared total
matches its data length. -/
theorem c3_witness :
    Message.new [Packet.mk (strBytes "ab") (some ⟨1, 0, some 2⟩) none .selfTimed none] =
      .ok ⟨strBytes "ab", none,
        [Packet.mk (strBytes "ab") (some ⟨1, 0, some 2⟩) none .selfTimed none]⟩ :=
  (c3_message_new_characterization.2.1
    (Packet.mk (strBytes "ab") (some ⟨1, 0, some 2⟩) none .selfTimed none)
    [] ⟨1, 0, some 2⟩ 2 rfl rfl).1 rfl

/-- C8: heartbeat normalization maps raw battery status byte 1 to
discharge, 2 to charge and everything else to idle; decodes the error-code
word into the eight named single-bit flags, a flag being present exactly
when its bit is set (the bits being 0x1, 0x2, 0x4, 0x8, 0x10, 0x20, 0x100
and 0x200); and rebases the raw battery temperature by the fixed offset
of 40. -/
theorem c8_normalization :
    (K2BatteryStatus.ofByte 1 = .discharge)
    ∧ (K2BatteryStatus.ofByte 2 = .charge)
    ∧ (∀ n : Byte, n ≠ 1 → n ≠ 2 → K2BatteryStatus.ofByte n = .idle)
    ∧ (∀ (n : Nat) (f : K2ErrorCodes),
        f ∈ K2ErrorCodes.flags n ↔ n &&& f.mask = f.mask)
    ∧ (K2ErrorCodes.mask .cellOvervoltage = 0x1
      ∧ K2ErrorCodes.mask .cellUndervoltage = 0x2
      ∧ K2ErrorCodes.mask .overtemperature = 0x4
      ∧ K2ErrorCodes.mask .undertemperature = 0x8
      ∧ K2ErrorCodes.mask .overcurrentDischarge = 0x10
      ∧ K2ErrorCodes.mask .overcurrentCharge = 0x20
      ∧ K2ErrorCodes.mask .securitySwitch = 0x100
      ∧ K2ErrorCodes.mask .cellMonitorCommError = 0x200)
    ∧ (∀ n : Byte, offset_k2_temperature n = n + 40) := by
  refine ⟨rfl, rfl, ?_, ?_, by decide, fun n => rfl⟩
  · intro n h1 h2
    simp [K2BatteryStatus.ofByte, h1, h2]
  · intro n f
    cases f <;>
      simp [K2ErrorCodes.flags, K2ErrorCodes.mask, mem_ite_singleton]

/-- Witness for C8: the idle default and the flag criterion at concrete
inputs. -/
theorem c8_witness :
    K2BatteryStatus.ofByte 7 = .idle
    ∧ (K2ErrorCodes.overtemperature ∈ K2ErrorCodes.flags 0x204 ↔
        0x204 &&& K2ErrorCodes.mask .overtemperature =
          K2ErrorCodes.mask .overtemperature) :=
  ⟨c8_normalization.2.2.1 7 (by decide) (by decide),
    c8_normalization.2.2.2.1 0x204 .overtemperature⟩

/-- The packet parsed from `"1,42,0,2:a"`: a start fragment for id 42. -/
def c2PacketA : Packet :=
  ⟨strBytes "a", some ⟨42, 0, some 2⟩, none, .selfTimed, none⟩

/-- The packet parsed from `"1,42,0,2:c"`: a second start fragment for
id 42. -/
def c2PacketC : Packet :=
  ⟨strBytes "c", some ⟨42, 0, some 2⟩, none, .selfTimed, none⟩

/-- The packet parsed from `"1,42,1:b"`: a continuation fragment for
id 42. -/
def c2PacketB : Packet :=
  ⟨strBytes "b", some ⟨42, 1, none⟩, none, .selfTimed, none⟩

/-- The reassembler state after adding the first start fragment. -/
def c2State1 : Reassembler := (Reassembler.new.add c2PacketA).2

/-- The reassembler state after also adding the second start fragment. -/
def c2State2 : Reassembler := (c2State1.add c2PacketC).2

/-- C2: for every reassembler state, adding a start fragment (one whose
sub-header declares `total_bytes`) with id `i` first moves the fragments
accumulated for `i` into the recycle bin, in order, after the bin's
current contents, and then accumulates from the new packet alone — the
message attempt sees only the new packet, and the fragment list for `i`
afterwards is empty when that attempt succeeded and exactly the new packet
otherwise.  In the concrete scenario, adding `"1,42,0,2:a"`, then
`"1,42,0,2:c"`, then `"1,42,1:b"` emits a message with data `"cb"` built
from the second start, and the recycle bin holds exactly the first start
fragment. -/
theorem c2_reassembler_reset :
    (∀ (r : Reassembler) (p : Packet) (sh : SubHeader) (T : Nat),
      p.subHeader = some sh → sh.total_bytes = some T →
      (r.add p).2.recycleBin = r.recycleBin ++ r.packetMap sh.id
      ∧ (r.add p).1 = (Message.new [p]).toOption
      ∧ (r.add p).2.packetMap sh.id =
          if (Message.new [p]).toOption.isSome then [] else [p])
    ∧ (Packet.new (strBytes "1,42,0,2:a") = .ok c2PacketA
      ∧ Packet.new (strBytes "1,42,0,2:c") = .ok c2PacketC
      ∧ Packet.new (strBytes "1,42,1:b") = .ok c2PacketB
      ∧ (c2State2.add c2PacketB).1 =
          some ⟨strBytes "cb", none, [c2PacketC, c2PacketB]⟩
      ∧ (c2State2.add c2PacketB).2.recycleBin = [c2PacketA]) := by
  constructor
  · intro r p sh T hsh htb
    have hstart : p.is_start_packet = true := by
      simp [Packet.is_start_packet, hsh, htb]
    simp only [Reassembler.add, hsh, hstart, List.nil_append, if_true]
    cases hm : Message.new [p] with
    | ok m => simp [hm, Except.toOption]
    | error e => simp [hm, Except.toOption]
  · exact ⟨rfl, rfl, rfl, rfl, rfl⟩

/-- Witness for C2's general clause at the second start fragment arriving
into the state that already accumulated the first. -/
theorem c2_witness :
    (c2State1.add c2PacketC).2.recycleBin =
      c2State1.recycleBin ++ c2State1.packetMap 42
    ∧ (c2State1.add c2PacketC).1 = (Message.new [c2PacketC]).toOption
    ∧ (c2State1.add c2PacketC).2.packetMap 42 =
        if (Message.new [c2PacketC]).toOption.isSome then [] else [c2PacketC] :=
  c2_reassembler_reset.1 c2State1 c2PacketC ⟨42, 0, some 2⟩ 2 rfl rfl

/-- The invariant of C10: every packet stored under key `i` carries a
sub-header whose id is `i`. -/
def ReassemblerInv (r : Reassembler) : Prop :=
  ∀ (i : Byte) (p : Packet), p ∈ r.packetMap i →
    ∃ sh, p.subHeader = some sh ∧ sh.id = i

/-- Folding a packet sequence into a fresh reassembler. -/
def addAll (ps : List Packet) : Reassembler :=
  ps.foldl (fun r p => (r.add p).2) Reassembler.new

/-- One `add` call preserves the fragment-map invariant. -/
theorem add_preserves_inv (r : Reassembler) (p : Packet)
    (h : ReassemblerInv r) : ReassemblerInv (r.add p).2 := by
  cases hsh : p.subHeader with
  | none =>
    intro i q hq
    simp only [Reassembler.add, hsh] at hq
    exact h i q hq
  | some sh =>
    intro i q hq
    simp only [Reassembler.add, hsh] at hq
    split at hq
    · simp only at hq
      by_cases hi : i = sh.id
      · rw [if_pos hi] at hq
        simp at hq
      · rw [if_neg hi] at hq
        exact h i q hq
    · simp only at hq
      by_cases hi : i = sh.id
      · rw [if_pos hi] at hq
        rw [List.mem_append] at hq
        cases hq with
        | inl hq =>
          split at hq
          · simp at hq
          · obtain ⟨sh2, h1, h2⟩ := h sh.id q hq
            exact ⟨sh2, h1, by rw [hi]; exact h2⟩
        | inr hq =>
          refine ⟨sh, ?_, ?_⟩
          · rw [List.mem_singleton] at hq
            rw [hq]
            exact hsh
          · rw [hi]
      · rw [if_neg hi] at hq
        exact h i q hq

/-- C10: starting from a fresh reassembler, every packet stored in the
fragment map under key `i` carries a sub-header whose id equals `i`, and
whenever `add` returns a completed message for a packet with sub-header id
`i`, the fragment list for `i` is left empty. -/
theorem c10_reassembler_invariant :
    (∀ ps : List Packet, ReassemblerInv (addAll ps))
    ∧ (∀ (r : Reassembler) (p : Packet) (sh : SubHeader) (m : Message),
        p.subHeader = some sh → (r.add p).1 = some m →
        (r.add p).2.packetMap sh.id = []) := by
  constructor
  · have hgen : ∀ (ps : List Packet) (r : Reassembler), ReassemblerInv r →
        ReassemblerInv (ps.foldl (fun r p => (r.add p).2) r) := by
      intro ps
      induction ps with
      | nil => intro r h; exact h
      | cons p ps ih =>
        intro r h
        exact ih _ (add_preserves_inv r p h)
    intro ps
    apply hgen
    intro i q hq
    simp [Reassembler.new] at hq
  · intro r p sh m hsh hm
    simp only [Reassembler.add, hsh] at hm ⊢
    split at hm
    · next m2 heq =>
      simp only [heq]
      simp
    · simp at hm

/-- Witness for C10's completion clause: a one-fragment start packet whose
declared total equals its data length completes immediately and leaves its
fragment list empty. -/
theorem c10_witness :
    (Reassembler.new.add
      (Packet.mk (strBytes "a") (some ⟨7, 0, some 1⟩) none .selfTimed none)).2.packetMap 7
      = [] :=
  c10_reassembler_invariant.2 Reassembler.new
    (Packet.mk (strBytes "a") (some ⟨7, 0, some 1⟩) none .selfTimed none)
    ⟨7, 0, some 1⟩
    ⟨strBytes "a", none, [Packet.mk (strBytes "a") (some ⟨7, 0, some 1⟩) none .selfTimed none]⟩
    rfl rfl

/-- The arithmetic characterization of `is_extended`. -/
theorem is_extended_iff (t : Nat) :
    is_extended t = true ↔ (t = 49 ∨ t = 51 ∨ t = 53 ∨ t = 55 ∨ t = 57) := by
  simp only [is_extended, Bool.and_eq_true, decide_eq_true_eq]
  constructor
  · rintro ⟨⟨h1, h2⟩, h3⟩
    interval_cases t <;> simp_all
  · rintro (rfl | rfl | rfl | rfl | rfl) <;> decide

/-- C9: a successfully parsed packet carries a sub-header exactly when its
type byte — the first byte after the leading `'~'` filler — is one of the
five ASCII characters `'1'`, `'3'`, `'5'`, `'7'`, `'9'` (bytes 49, 51, 53,
55, 57); every other type byte yields a packet without a sub-header. -/
theorem c9_sub_header_iff_extended :
    ∀ (bs : List Byte) (t : Byte) (rest : List Byte) (p : Packet),
      dropTildes bs = t :: rest → Packet.new bs = .ok p →
      (p.subHeader.isSome = true ↔
        (t = 49 ∨ t = 51 ∨ t = 53 ∨ t = 55 ∨ t = 57)) := by
  intro bs t rest p hdrop hok
  rw [← is_extended_iff]
  simp only [Packet.new, hdrop] at hok
  by_cases hext : is_extended t
  · rw [if_pos hext] at hok
    cases hu : utf8Decode (rest.takeWhile fun b => b ≠ SUB_HEADER_TERMINATOR) with
    | none => rw [hu] at hok; simp at hok
    | some s =>
      rw [hu] at hok
      simp only at hok
      cases hp : parseSubHeaderFields s with
      | error e => rw [hp] at hok; simp at hok
      | ok pr =>
        rw [hp] at hok
        simp only at hok
        obtain ⟨sh, station⟩ := pr
        simp only [Except.ok.injEq] at hok
        rw [← hok]
        simp [hext]
  · rw [if_neg hext] at hok
    cases hs : station_name_from_non_extended_sub_header rest with
    | some pr =>
      obtain ⟨name, after⟩ := pr
      rw [hs] at hok
      simp only [Except.ok.injEq] at hok
      rw [← hok]
      simpa using hext
    | none =>
      rw [hs] at hok
      simp only [Except.ok.injEq] at hok
      rw [← hok]
      simpa using hext

/-- Witness for C9 at the concrete extended input `"1,1,2:"`. -/
theorem c9_witness :
    (Packet.mk [] (some ⟨1, 2, none⟩) none .selfTimed none).subHeader.isSome = true ↔
      ((49 : Byte) = 49 ∨ (49 : Byte) = 51 ∨ (49 : Byte) = 53
        ∨ (49 : Byte) = 55 ∨ (49 : Byte) = 57) :=
  c9_sub_header_iff_extended (strBytes "1,1,2:") 49 (strBytes ",1,2:")
    (Packet.mk [] (some ⟨1, 2, none⟩) none .selfTimed none) rfl rfl

/-- C7 (amended): for every input that `Packet::new` parses into a packet
with neither a sub-header nor a station name, prepending the type byte to
the parsed data reproduces the input bytes with the leading `'~'` filler
removed. -/
theorem c7_plain_packet_roundtrip :
    ∀ (bs : List Byte) (t : Byte) (rest : List Byte) (p : Packet),
      dropTildes bs = t :: rest → Packet.new bs = .ok p →
      p.subHeader = none → p.stationName = none →
      t :: p.data = dropTildes bs := by
  intro bs t rest p hdrop hok hsub hst
  rw [hdrop]
  simp only [Packet.new, hdrop] at hok
  by_cases hext : is_extended t
  · exfalso
    rw [if_pos hext] at hok
    cases hu : utf8Decode (rest.takeWhile fun b => b ≠ SUB_HEADER_TERMINATOR) with
    | none => rw [hu] at hok; simp at hok
    | some s =>
      rw [hu] at hok
      simp only at hok
      cases hp : parseSubHeaderFields s with
      | error e => rw [hp] at hok; simp at hok
      | ok pr =>
        rw [hp] at hok
        obtain ⟨sh, station⟩ := pr
        simp only [Except.ok.injEq] at hok
        rw [← hok] at hsub
        simp at hsub
  · rw [if_neg hext] at hok
    cases hs : station_name_from_non_extended_sub_header rest with
    | some pr =>
      exfalso
      obtain ⟨name, after⟩ := pr
      rw [hs] at hok
      simp only [Except.ok.injEq] at hok
      rw [← hok] at hst
      simp at hst
    | none =>
      rw [hs] at hok
      simp only [Except.ok.injEq] at hok
      rw [← hok]

/-- Witness for C7 at the concrete plain input `"0abc"`. -/
theorem c7_witness :
    (48 : Byte) :: (Packet.mk (strBytes "abc") none none .selfTimed none).data =
      dropTildes (strBytes "0abc") :=
  c7_plain_packet_roundtrip (strBytes "0abc") 48 (strBytes "abc")
    (Packet.mk (strBytes "abc") none none .selfTimed none) rfl rfl rfl rfl

/-- The packet parsed from `"0,N=A:x"`: no sub-header, but a station name,
and data that has lost the station-name bytes. -/
def c7Packet : Packet := ⟨strBytes "x", none, some ['A'], .selfTimed, none⟩

/-- Counterexample to C7 as stated: the input `"0,N=A:x"` parses into a
packet without a sub-header, yet prepending the type byte to its data
yields `"0x"`, not the original input — the station-name bytes are
consumed. -/
theorem c7_counterexample :
    Packet.new (strBytes "0,N=A:x") = .ok c7Packet
    ∧ c7Packet.subHeader = none
    ∧ 48 :: c7Packet.data ≠ strBytes "0,N=A:x" := by
  refine ⟨rfl, rfl, ?_⟩
  decide

/-- C5 (amended): for every byte buffer of at least 4 bytes whose first 4
bytes differ from the magic literal `"ATHB"`, `Heartbeat::new` fails with
the invalid-magic error carrying those 4 bytes unchanged.  (A buffer
shorter than 4 bytes instead fails with the reader's end-of-input error,
because the `read_exact` call fails before the magic comparison.) -/
theorem c5_invalid_magic :
    ∀ (b0 b1 b2 b3 : Byte) (rest : List Byte),
      [b0, b1, b2, b3] ≠ MAGIC_NUMBER →
      Heartbeat.new (b0 :: b1 :: b2 :: b3 :: rest) =
        .error (.magicNumber [b0, b1, b2, b3]) := by
  intro b0 b1 b2 b3 rest h
  have h4 : readBytesN 4 (b0 :: b1 :: b2 :: b3 :: rest) =
      .ok ([b0, b1, b2, b3], rest) := rfl
  simp only [Heartbeat.new, h4, except_bind_ok]
  rw [if_pos h]

/-- Witness for C5 at the concrete input `"PETE"`. -/
theorem c5_witness :
    Heartbeat.new (80 :: 69 :: 84 :: 69 :: ([] : List Byte)) =
      .error (.magicNumber [80, 69, 84, 69]) :=
  c5_invalid_magic 80 69 84 69 [] (by decide)

/-- Counterexample to C5 as stated: the empty buffer does not begin with
the magic literal, yet decoding fails with the end-of-input error rather
than the invalid-magic error (there are no 4 offending bytes to report). -/
theorem c5_counterexample :
    Heartbeat.new ([] : List Byte) = .error .eof := rfl

/-- A failing sub-header parse propagates out of `Packet::new`'s extended
branch unchanged. -/
theorem packet_new_extended_error (bs : List Byte) (t : Byte)
    (rest : List Byte) (s : List Char) (e : PacketError)
    (hdrop : dropTildes bs = t :: rest)
    (hext : is_extended t = true)
    (hutf : utf8Decode (rest.takeWhile fun b => b ≠ SUB_HEADER_TERMINATOR) = some s)
    (hperr : parseSubHeaderFields s = .error e) :
    Packet.new bs = .error e := by
  simp only [Packet.new, hdrop, hext, if_true, hutf, hperr]

/-- A sub-header string with an empty leading field and no second field
fails with `MissingId`. -/
theorem parse_fields_missing_id (s : List Char)
    (hhead : (splitComma s).head? = some [])
    (hnone : (splitComma s)[1]? = none) :
    parseSubHeaderFields s = .error .missingId := by
  simp only [parseSubHeaderFields, hhead, hnone]
  simp

/-- A sub-header string with an empty leading field and a second field
that does not parse as a `u8` fails with the integer-parse error. -/
theorem parse_fields_bad_id (s : List Char) (f : List Char)
    (hhead : (splitComma s).head? = some [])
    (hsome : (splitComma s)[1]? = some f)
    (hparse : rustParseNat 255 f = none) :
    parseSubHeaderFields s = .error .parseIntError := by
  simp only [parseSubHeaderFields, hhead, hsome, hparse]
  simp

/-- C6 (amended): in an extended packet whose sub-header string has an
empty leading field, `Packet::new` fails with `MissingId` exactly when the
second comma-separated field is absent; a second field that is present but
not a numeric `u8` instead fails with the wrapped integer-parse error,
not `MissingId`. -/
theorem c6_missing_id :
    ∀ (bs : List Byte) (t : Byte) (rest : List Byte) (s : List Char),
      dropTildes bs = t :: rest →
      is_extended t = true →
      utf8Decode (rest.takeWhile fun b => b ≠ SUB_HEADER_TERMINATOR) = some s →
      (splitComma s).head? = some [] →
      ((splitComma s)[1]? = none → Packet.new bs = .error .missingId)
      ∧ (∀ f, (splitComma s)[1]? = some f → rustParseNat 255 f = none →
          Packet.new bs = .error .parseIntError) := by
  intro bs t rest s hdrop hext hutf hhead
  constructor
  · intro hnone
    exact packet_new_extended_error bs t rest s .missingId hdrop hext hutf
      (parse_fields_missing_id s hhead hnone)
  · intro f hsome hparse
    exact packet_new_extended_error bs t rest s .parseIntError hdrop hext hutf
      (parse_fields_bad_id s f hhead hsome hparse)

/-- Witness for C6 at the concrete inputs `"1:"` (absent id field, so
`MissingId`) and `"1,abc,5:"` (non-numeric id field, so the integer-parse
error). -/
theorem c6_witness :
    Packet.new (strBytes "1:") = .error .missingId
    ∧ Packet.new (strBytes "1,abc,5:") = .error .parseIntError :=
  ⟨(c6_missing_id (strBytes "1:") 49 (strBytes ":") [] rfl (by decide) rfl
      rfl).1 rfl,
    (c6_missing_id (strBytes "1,abc,5:") 49 (strBytes ",abc,5:")
      ",abc,5".toList rfl (by decide) rfl rfl).2 "abc".toList rfl rfl⟩

/-- Counterexample to C6 as stated: the input `"1,z,0:"` has a second
sub-header field that is present but not numeric, and `Packet::new` fails
with the wrapped integer-parse error — a different error value than
`MissingId`. -/
theorem c6_counterexample :
    Packet.new (strBytes "1,z,0:") = .error .parseIntError
    ∧ PacketError.parseIntError ≠ PacketError.missingId := by
  refine ⟨rfl, ?_⟩
  decide

/-- An unexpected status byte aborts the battery slot loop. -/
theorem readBatterySlots_unexpected (n : Nat)
    (acc : List (Option version_03.K2)) (c : Byte) (rest : List Byte)
    (hg : c ≠ version_03.GOOD) (hb : c ≠ version_03.BAD) :
    version_03.readBatterySlots (n + 1) acc (c :: rest) =
      .error (.unexpectedByte c) := by
  simp only [version_03.readBatterySlots, readU8, except_bind_ok]
  rw [if_neg hg, if_neg hb]

/-- An unexpected byte at the battery bank position aborts the bank read. -/
theorem batteries_read_from_unexpected (c : Byte) (rest : List Byte)
    (hx : c ≠ version_03.COULD_NOT_OPEN) (hg : c ≠ version_03.GOOD)
    (hb : c ≠ version_03.BAD) :
    version_03.Batteries.read_from (c :: rest) =
      .error (.unexpectedByte c) := by
  simp only [version_03.Batteries.read_from, readU8, except_bind_ok]
  rw [if_neg hx, readBatterySlots_unexpected 3 [] c rest hg hb]
  rfl

/-- A version 03 EFOY slot byte that is neither could-not-open nor bad is
treated as a responding unit: a fuel-cell record read follows. -/
theorem readEfoySlots03_other_byte (n : Nat)
    (acc : List (Option version_03.Efoy)) (c : Byte) (rest : List Byte)
    (hx : c ≠ version_03.COULD_NOT_OPEN) (hb : c ≠ version_03.BAD) :
    version_03.readEfoySlots (n + 1) acc (c :: rest) =
      (do
        let (e, bs2) ← version_03.Efoy.read_from rest
        version_03.readEfoySlots n (acc ++ [some e]) bs2) := by
  simp only [version_03.readEfoySlots, readU8, except_bind_ok]
  rw [if_neg (not_or.mpr ⟨hx, hb⟩)]

/-- A version 04 EFOY slot byte that is neither could-not-open nor bad is
treated as a responding unit: a fuel-cell record and the active-cartridge
byte follow. -/
theorem readEfoySlots04_other_byte (n : Nat)
    (acc : List (Option version_04.Efoy)) (c : Byte) (rest : List Byte)
    (hx : c ≠ version_03.COULD_NOT_OPEN) (hb : c ≠ version_03.BAD) :
    version_04.readEfoySlots (n + 1) acc (c :: rest) =
      (do
        let (e, bs2) ← version_03.Efoy.read_from rest
        let (port, bs3) ← readU8 bs2
        version_04.readEfoySlots n (acc ++ [some ⟨e, port⟩]) bs3) := by
  simp only [version_04.readEfoySlots, readU8, except_bind_ok]
  rw [if_neg (not_or.mpr ⟨hx, hb⟩)]

/-- C1 (amended): at the battery bank-level byte and at each per-battery
slot byte, any byte value other than the expected status constants is a
hard decode error; but at each per-fuel-cell slot byte (both versions),
any byte other than could-not-open and did-not-respond — not just the
responded constant — is treated as a responding unit and a fuel-cell
record is decoded, so no hard decode error arises from that byte itself. -/
theorem c1_status_bytes :
    (∀ (c : Byte) (rest : List Byte),
      c ≠ version_03.COULD_NOT_OPEN → c ≠ version_03.GOOD →
      c ≠ version_03.BAD →
      version_03.Batteries.read_from (c :: rest) =
        .error (.unexpectedByte c))
    ∧ (∀ (n : Nat) (acc : List (Option version_03.K2)) (c : Byte)
        (rest : List Byte),
        c ≠ version_03.GOOD → c ≠ version_03.BAD →
        version_03.readBatterySlots (n + 1) acc (c :: rest) =
          .error (.unexpectedByte c))
    ∧ (∀ (n : Nat) (acc : List (Option version_03.Efoy)) (c : Byte)
        (rest : List Byte),
        c ≠ version_03.COULD_NOT_OPEN → c ≠ version_03.BAD →
        version_03.readEfoySlots (n + 1) acc (c :: rest) =
          (do
            let (e, bs2) ← version_03.Efoy.read_from rest
            version_03.readEfoySlots n (acc ++ [some e]) bs2))
    ∧ (∀ (n : Nat) (acc : List (Option version_04.Efoy)) (c : Byte)
        (rest : List Byte),
        c ≠ version_03.COULD_NOT_OPEN → c ≠ version_03.BAD →
        version_04.readEfoySlots (n + 1) acc (c :: rest) =
          (do
            let (e, bs2) ← version_03.Efoy.read_from rest
            let (port, bs3) ← readU8 bs2
            version_04.readEfoySlots n (acc ++ [some ⟨e, port⟩]) bs3)) :=
  ⟨fun c rest hx hg hb => batteries_read_from_unexpected c rest hx hg hb,
    fun n acc c rest hg hb => readBatterySlots_unexpected n acc c rest hg hb,
    fun n acc c rest hx hb => readEfoySlots03_other_byte n acc c rest hx hb,
    fun n acc c rest hx hb => readEfoySlots04_other_byte n acc c rest hx hb⟩

/-- Witness for C1 at the concrete byte `'z'` (122). -/
theorem c1_witness :
    version_03.Batteries.read_from (122 :: ([0] : List Byte)) =
      .error (.unexpectedByte 122)
    ∧ version_03.readEfoySlots (1 + 1) [] (122 :: List.replicate 23 0) =
      (do
        let (e, bs2) ← version_03.Efoy.read_from (List.replicate 23 0)
        version_03.readEfoySlots 1 ([] ++ [some e]) bs2) :=
  ⟨c1_status_bytes.1 122 [0] (by decide) (by decide) (by decide),
    c1_status_bytes.2.2.1 1 [] 122 (List.replicate 23 0) (by decide) (by decide)⟩

/-- The bytes of a minimal, grammar-matching scanner text block. -/
def scanOkBytes : List Byte :=
  strBytes "power_on=,start_scan=,stop_scan=,skip_scan="

/-- A complete version 03 heartbeat message whose first fuel-cell slot
status byte is `'z'` (122) — a byte that is none of the three status
constants — followed by a 23-byte all-zero fuel-cell record. -/
def c1Bytes : List Byte :=
  strBytes "ATHB" ++ strBytes "03" ++ strBytes "000" ++
    [120] ++ ([122] ++ List.replicate 23 0 ++ [98]) ++
    List.replicate 16 0 ++ scanOkBytes

/-- Counterexample to C1 as stated: a buffer carrying the byte 122 — not
one of the three status constants — at the first fuel-cell slot's status
position decodes successfully, treating the slot as a responding unit,
instead of failing with a hard decode error. -/
theorem c1_counterexample :
    Heartbeat.new c1Bytes =
      .ok (.version03 ⟨none⟩ ⟨[some ⟨0, 0, 0, 0, 0, 0, 0, 0⟩, none]⟩
        ⟨0, 0, 0, 0⟩ none ⟨[], [], [], []⟩)
    ∧ (122 : Byte) ≠ version_03.COULD_NOT_OPEN
    ∧ (122 : Byte) ≠ version_03.GOOD
    ∧ (122 : Byte) ≠ version_03.BAD := by
  refine ⟨rfl, ?_, ?_, ?_⟩ <;> decide

/-- C4: in both versions, once the battery, fuel-cell and sensor blocks
have decoded, the decoder first tries the scanner text block on the
remaining bytes `r`: when that attempt succeeds the heartbeat has no wind
block; when it fails the cursor is rewound to `r`, an 8-byte wind block —
two little-endian floats, speed then direction, as the final conjunct
records — is consumed, wind is present, and the scanner grammar is retried
on the remainder, any failure of the retry (or of the wind read itself)
failing the whole decode. -/
theorem c4_wind_speculative_parse :
    (∀ (bs bs1 bs2 r : List Byte) (bat : version_03.Batteries)
        (ef : version_03.Efoys) (sen : version_03.Sensors),
      version_03.Batteries.read_from bs = .ok (bat, bs1) →
      version_03.Efoys.read_from bs1 = .ok (ef, bs2) →
      version_03.Sensors.read_from bs2 = .ok (sen, r) →
      (∀ sc rem, version_03.Scanner.read_from r = .ok (sc, rem) →
        Heartbeat.read_version_03_from bs =
          .ok (.version03 bat ef sen none sc))
      ∧ (∀ e (w : version_03.Wind) r2,
          version_03.Scanner.read_from r = .error e →
          version_03.Wind.read_from r = .ok (w, r2) →
          (∀ sc rem, version_03.Scanner.read_from r2 = .ok (sc, rem) →
            Heartbeat.read_version_03_from bs =
              .ok (.version03 bat ef sen (some w) sc))
          ∧ (∀ e2, version_03.Scanner.read_from r2 = .error e2 →
            Heartbeat.read_version_03_from bs = .error e2))
      ∧ (∀ e e2, version_03.Scanner.read_from r = .error e →
          version_03.Wind.read_from r = .error e2 →
          Heartbeat.read_version_03_from bs = .error e2))
    ∧ (∀ (bs bs1 bs2 r : List Byte) (bat : version_03.Batteries)
        (ef : version_04.Efoys) (sen : version_03.Sensors),
      version_03.Batteries.read_from bs = .ok (bat, bs1) →
      version_04.Efoys.read_from bs1 = .ok (ef, bs2) →
      version_03.Sensors.read_from bs2 = .ok (sen, r) →
      (∀ sc rem, version_03.Scanner.read_from r = .ok (sc, rem) →
        Heartbeat.read_version_04_from bs =
          .ok (.version04 bat ef sen none sc))
      ∧ (∀ e (w : version_03.Wind) r2,
          version_03.Scanner.read_from r = .error e →
          version_03.Wind.read_from r = .ok (w, r2) →
          (∀ sc rem, version_03.Scanner.read_from r2 = .ok (sc, rem) →
            Heartbeat.read_version_04_from bs =
              .ok (.version04 bat ef sen (some w) sc))
          ∧ (∀ e2, version_03.Scanner.read_from r2 = .error e2 →
            Heartbeat.read_version_04_from bs = .error e2))
      ∧ (∀ e e2, version_03.Scanner.read_from r = .error e →
          version_03.Wind.read_from r = .error e2 →
          Heartbeat.read_version_04_from bs = .error e2))
    ∧ (∀ (w1 w2 w3 w4 w5 w6 w7 w8 : Byte) (r2 : List Byte),
        version_03.Wind.read_from
            (w1 :: w2 :: w3 :: w4 :: w5 :: w6 :: w7 :: w8 :: r2) =
          .ok (⟨leWord [w1, w2, w3, w4], leWord [w5, w6, w7, w8]⟩, r2)) := by
  refine ⟨?_, ?_, ?_⟩
  · intro bs bs1 bs2 r bat ef sen h1 h2 h3
    refine ⟨?_, ?_, ?_⟩
    · intro sc rem hsc
      simp only [Heartbeat.read_version_03_from, h1, except_bind_ok, h2, h3,
        hsc]
    · intro e w r2 he hw
      constructor
      · intro sc rem hsc2
        simp only [Heartbeat.read_version_03_from, h1, except_bind_ok, h2, h3,
          he, hw, hsc2]
      · intro e2 he2
        simp only [Heartbeat.read_version_03_from, h1, except_bind_ok, h2, h3,
          he, hw, he2, except_bind_error]
    · intro e e2 he hw
      simp only [Heartbeat.read_version_03_from, h1, except_bind_ok, h2, h3,
        he, hw, except_bind_error]
  · intro bs bs1 bs2 r bat ef sen h1 h2 h3
    refine ⟨?_, ?_, ?_⟩
    · intro sc rem hsc
      simp only [Heartbeat.read_version_04_from, h1, except_bind_ok, h2, h3,
        hsc]
    · intro e w r2 he hw
      constructor
      · intro sc rem hsc2
        simp only [Heartbeat.read_version_04_from, h1, except_bind_ok, h2, h3,
          he, hw, hsc2]
      · intro e2 he2
        simp only [Heartbeat.read_version_04_from, h1, except_bind_ok, h2, h3,
          he, hw, he2, except_bind_error]
    · intro e e2 he hw
      simp only [Heartbeat.read_version_04_from, h1, except_bind_ok, h2, h3,
        he, hw, except_bind_error]
  · intro w1 w2 w3 w4 w5 w6 w7 w8 r2
    rfl

/-- The remaining bytes of the C4 witness after the battery block. -/
def c4Rest1 : List Byte := [98, 98] ++ List.replicate 16 0 ++ scanOkBytes

/-- The remaining bytes of the C4 witness after the fuel-cell block. -/
def c4Rest2 : List Byte := List.replicate 16 0 ++ scanOkBytes

/-- Witness for C4: a concrete version 03 tail whose scanner text matches
on the first attempt, so the decoded heartbeat has no wind block. -/
theorem c4_witness :
    Heartbeat.read_version_03_from ([120] ++ c4Rest1) =
      .ok (.version03 ⟨none⟩ ⟨[none, none]⟩ ⟨0, 0, 0, 0⟩ none
        ⟨[], [], [], []⟩)
    ∧ version_03.Wind.read_from
        (1 :: 0 :: 0 :: 0 :: 2 :: 0 :: 0 :: 0 :: ([] : List Byte)) =
      .ok (⟨leWord [1, 0, 0, 0], leWord [2, 0, 0, 0]⟩, []) :=
  ⟨(c4_wind_speculative_parse.1 ([120] ++ c4Rest1) c4Rest1 c4Rest2
      scanOkBytes ⟨none⟩ ⟨[none, none]⟩ ⟨0, 0, 0, 0⟩ (by rfl) (by rfl)
      (by rfl)).1 ⟨[], [], [], []⟩ [] (by rfl),
    c4_wind_speculative_parse.2.2 1 0 0 0 2 0 0 0 []⟩

end Glacio
